import Mathlib

/-!
# golog: daily-rotating leveled logger

A shallow embedding of `log.go` (package `golog`).  Go state is threaded
explicitly: a `Logger` value stands for the `*Logger` receiver and a `World`
value for the operating system (file system, open descriptors, bytes written).
The Go standard library functions that the program calls (`fmt`, `strings`,
`time`, `os`, `log`, `context`) are modelled in the first sections; the
repository's own functions follow, under their source names.
-/

namespace Golog

/-! ## Values, `fmt` and `strings` -/

/-- A Go value of static type `any`, as far as `%v` formatting can tell them
apart: strings, integers, booleans, the nil interface, and any other
non-string value given by its `%v` rendering. -/
inductive GoValue where
  | str (s : String)
  | int (n : Int)
  | bool (b : Bool)
  | nil
  | other (rendering : String)
  deriving DecidableEq

/-- Decimal digits of a natural number, most significant first (`fuel` bounds
the number of digits). -/
def natDigits : Nat → Nat → List Char
  | 0, _ => []
  | fuel + 1, n =>
    (if n < 10 then [] else natDigits fuel (n / 10)) ++ [Char.ofNat (48 + n % 10)]

/-- Rendering of an integer under `%v` (`%d`). -/
def fmtInt (n : Int) : String :=
  if n < 0 then ⟨'-' :: natDigits (n.natAbs + 1) n.natAbs⟩
  else ⟨natDigits (n.natAbs + 1) n.natAbs⟩

/-- Rendering of a value under the verb `%v`. -/
def fmtV : GoValue → String
  | .str s => s
  | .int n => fmtInt n
  | .bool true => "true"
  | .bool false => "false"
  | .nil => "<nil>"
  | .other r => r

/-- Kind test used by `fmt.Sprint`: is the operand of string kind? -/
def GoValue.isString : GoValue → Bool
  | .str _ => true
  | _ => false

/-- Loop of `fmt.(*pp).doPrint`: a space is written before an operand that is
not the first when neither it nor its predecessor is a string. -/
def doPrint : Bool → Bool → List GoValue → String
  | _, _, [] => ""
  | first, prevString, a :: rest =>
    (if !first && !a.isString && !prevString then " " else "") ++ fmtV a
      ++ doPrint false a.isString rest

/-- Go `fmt.Sprint(a...)`. -/
def Sprint (a : List GoValue) : String := doPrint true false a

/-- Go `strings.Trim(s, cutset)`: all leading and trailing code points that
occur in `cutset` are removed (right end first, then left end). -/
def stringsTrim (s cutset : String) : String :=
  ⟨List.dropWhile (fun c => decide (c ∈ cutset.data))
    (List.rdropWhile (fun c => decide (c ∈ cutset.data)) s.data)⟩

/-! ## `context` -/

/-- A value stored on a context.  A `map[string]any` is given by its entries
in the order in which a `range` statement visits them; Go leaves that order
unspecified, so one map stands for every permutation of its entries (keys are
pairwise distinct).  Any other dynamic type fails the type assertion
`.(map[string]any)`. -/
inductive CtxValue where
  | mapping (entries : List (String × GoValue))
  | notMapping (v : GoValue)
  deriving DecidableEq

/-- A context as the chain built by `context.WithValue`, innermost binding
first.  Only string keys are recorded: `Logger.traceKey` is a string and a key
of another type never equals it. -/
abbrev Context := List (String × CtxValue)

/-- Go `ctx.Value(key)`: the innermost binding of `key`, `none` for Go `nil`. -/
def Context.Value (ctx : Context) (key : String) : Option CtxValue :=
  match ctx with
  | [] => none
  | (k, v) :: rest => if k = key then some v else Context.Value rest key

/-! ## `time` -/

/-- An instant as returned by `time.Now()`: seconds since the Unix epoch and
the offset of the local zone at that instant, in seconds east of UTC. -/
structure Time where
  unix : Int
  offset : Int
  deriving DecidableEq

/-- A calendar date of the proleptic Gregorian calendar. -/
structure Civil where
  year : Int
  month : Int
  day : Int
  deriving DecidableEq

/-- Number of days from 1970-01-01 to the given calendar date. -/
def daysFromCivil (c : Civil) : Int :=
  let y := if c.month ≤ 2 then c.year - 1 else c.year
  let era := y / 400
  let yoe := y - era * 400
  let mp := if c.month > 2 then c.month - 3 else c.month + 9
  let doy := (153 * mp + 2) / 5 + c.day - 1
  let doe := yoe * 365 + yoe / 4 - yoe / 100 + doy
  era * 146097 + doe - 719468

/-- Calendar date of the day that lies `z` days after 1970-01-01. -/
def civilFromDays (z : Int) : Civil :=
  let z1 := z + 719468
  let era := z1 / 146097
  let doe := z1 - era * 146097
  let yoe := (doe - doe / 1460 + doe / 36524 - doe / 146096) / 365
  let doy := doe - (365 * yoe + yoe / 4 - yoe / 100)
  let mp := (5 * doy + 2) / 153
  let d := doy - (153 * mp + 2) / 5 + 1
  let m := if mp < 10 then mp + 3 else mp - 9
  { year := if m ≤ 2 then yoe + era * 400 + 1 else yoe + era * 400, month := m, day := d }

/-- Calendar date of an instant in its local zone. -/
def Time.localDate (t : Time) : Civil := civilFromDays ((t.unix + t.offset) / 86400)

/-- Go `t.YearDay()`: day of the year, 1 for January 1st, in the local zone. -/
def Time.YearDay (t : Time) : Int :=
  let c := t.localDate
  daysFromCivil c - daysFromCivil { year := c.year, month := 1, day := 1 } + 1

/-- Go `time.appendInt`: decimal digits, zero-padded to `width`, after a minus
sign for a negative number. -/
def appendInt (x : Int) (width : Nat) : List Char :=
  let ds := natDigits (x.natAbs + 1) x.natAbs
  (if x < 0 then ['-'] else []) ++ List.replicate (width - ds.length) '0' ++ ds

/-- Go `t.Format("2006-01-02")`: the local date as `YYYY-MM-DD`. -/
def formatDate (t : Time) : String :=
  let c := t.localDate
  ⟨appendInt c.year 4 ++ ['-'] ++ appendInt c.month 2 ++ ['-'] ++ appendInt c.day 2⟩

/-- Go `time.isDigit` on one character. -/
def isDigit (c : Char) : Bool := decide ('0' ≤ c) && decide (c ≤ '9')

/-- Value of a decimal digit character. -/
def digitVal (c : Char) : Int := (c.toNat : Int) - 48

/-- Go `time.isLeap`. -/
def isLeap (year : Int) : Bool :=
  decide (year % 4 = 0) && (decide (year % 100 ≠ 0) || decide (year % 400 = 0))

/-- Go `time.daysIn`: number of days of a month. -/
def daysIn (month year : Int) : Int :=
  if month = 2 then (if isLeap year then 29 else 28)
  else if month = 4 ∨ month = 6 ∨ month = 9 ∨ month = 11 then 30
  else 31

/-- The date part of Go `time.Parse("2006-01-02", value)`: four year digits,
a dash, two month digits, a dash, two day digits and nothing else, with the
month in 1..12 and the day valid for the month; `none` stands for a non-nil
error. -/
def parseDate (value : String) : Option Civil :=
  match value.data with
  | [y1, y2, y3, y4, s1, m1, m2, s2, d1, d2] =>
    if isDigit y1 && isDigit y2 && isDigit y3 && isDigit y4 && decide (s1 = '-')
        && isDigit m1 && isDigit m2 && decide (s2 = '-') && isDigit d1 && isDigit d2 then
      let year := digitVal y1 * 1000 + digitVal y2 * 100 + digitVal y3 * 10 + digitVal y4
      let month := digitVal m1 * 10 + digitVal m2
      let day := digitVal d1 * 10 + digitVal d2
      if month ≤ 0 ∨ 12 < month then none
      else if day < 1 ∨ day > daysIn month year then none
      else some { year := year, month := month, day := day }
    else none
  | _ => none

/-- Unix seconds of the zero `time.Time` (January 1, year 1, 00:00:00 UTC),
the value `time.Parse` returns together with an error. -/
def zeroTimeUnix : Int := -62135596800

/-- Go `time.Parse("2006-01-02", value)` followed by `.Unix()` on the returned
time, with the error flag: a parsed date is midnight UTC of that date, and on
an error the returned time is the zero `time.Time`. -/
def timeParseUnix (value : String) : Int × Bool :=
  match parseDate value with
  | some c => (daysFromCivil c * 86400, false)
  | none => (zeroTimeUnix, true)

/-- Two's-complement wrap-around of a 64-bit signed integer (Go `int64`, and
`int` on 64-bit platforms). -/
def wrap64 (x : Int) : Int := (x + 2 ^ 63) % 2 ^ 64 - 2 ^ 63

/-! ## `os`, `path/filepath` and `log` -/

/-- A Go `*os.File`: the nil pointer, the process-wide `os.Stderr`, or a file
opened by `os.OpenFile`, identified by the serial number of the open call and
the path it was opened at. -/
inductive File where
  | nil
  | stderr
  | fd (n : Nat) (path : String)
  deriving DecidableEq

/-- The errors of the `os` calls the program makes. -/
inductive OsError where
  | notExist
  | notDir
  | invalid
  | closed
  deriving DecidableEq

/-- System calls that touch the file system or a descriptor, as recorded in
the trace of a `World`. -/
inductive FsOp where
  | stat (path : String)
  | mkdirAll (path : String)
  | openFile (path : String)
  | close (f : File)
  | readDir (path : String)
  | removeAll (path : String)
  deriving DecidableEq

/-- One call of `Write` on a file: the target, the text, and whether the write
succeeded (it fails on a nil or closed file). -/
structure WriteRec where
  file : File
  line : String
  ok : Bool
  deriving DecidableEq

/-- One entry of a directory listing (`os.DirEntry`). -/
structure DirEntry where
  name : String
  isDir : Bool
  deriving DecidableEq

/-- The operating system as the program sees it: the existing directories and
regular files (by path), the number of files opened so far, the files that were
closed, every write in order, and the trace of system calls in order. -/
structure World where
  dirs : List String
  files : List String
  nextFd : Nat
  closed : List File
  output : List WriteRec
  ops : List FsOp
  deriving DecidableEq

/-- Components of a path, the pieces between its slashes. -/
def splitSlash : List Char → List (List Char)
  | [] => [[]]
  | c :: cs =>
    if c = '/' then [] :: splitSlash cs
    else
      match splitSlash cs with
      | [] => [[c]]
      | x :: xs => (c :: x) :: xs

/-- One component in the loop of Go `filepath.Clean`, over the components kept
so far (last one first): empty and `.` components are dropped, a `..` removes
the component before it, is dropped at the root of a rooted path and is kept at
the start of a relative one. -/
def cleanStep (rooted : Bool) (kept : List (List Char)) (comp : List Char) :
    List (List Char) :=
  if comp = [] ∨ comp = ['.'] then kept
  else if comp = ['.', '.'] then
    match kept with
    | [] => if rooted then [] else [comp]
    | top :: rest => if top = ['.', '.'] then comp :: kept else rest
  else comp :: kept

/-- Go `filepath.Clean(path)` with the separator `/`. -/
def pathClean (path : String) : String :=
  let rooted := decide (path.data.head? = some '/')
  let body := List.intercalate ['/']
    ((splitSlash path.data).foldl (cleanStep rooted) []).reverse
  if rooted then ⟨'/' :: body⟩ else if body.isEmpty then "." else ⟨body⟩

/-- Go `filepath.Join(elem...)`: empty elements are ignored, the rest joined
by `/` and the result cleaned; the empty string when nothing is left. -/
def pathJoin (elem : List String) : String :=
  let parts := elem.filter (fun e => decide (e ≠ ""))
  if parts.isEmpty then "" else pathClean ⟨List.intercalate ['/'] (parts.map String.data)⟩

/-- Directory part of a path: everything before the last slash. -/
def parentOf (p : String) : String :=
  ⟨((p.data.reverse.dropWhile (fun c => decide (c ≠ '/'))).drop 1).reverse⟩

/-- A path together with all its ancestors, outermost first. -/
def ancestors : Nat → String → List String
  | 0, _ => []
  | fuel + 1, p => if p = "" then [] else ancestors fuel (parentOf p) ++ [p]

/-- What every path below the directory `root` (a clean path) starts with:
nothing for the working directory `.`, a slash for the root directory, else
`root` and a slash. -/
def dirLead (root : String) : List Char :=
  if root = "." then [] else if root = "/" then ['/'] else root.data ++ ['/']

/-- Does `p` lie strictly below the directory `root`? -/
def isUnder (root p : String) : Bool :=
  (dirLead root).isPrefixOf p.data && !(root = "." && decide (p.data.head? = some '/'))

/-- Name of `p` as an entry directly inside `root`, if it is one. -/
def childName (root p : String) : Option String :=
  let rest := p.data.drop (dirLead root).length
  if isUnder root p && !rest.isEmpty && !rest.contains '/' then some ⟨rest⟩ else none

/-- Go string comparison `a < b`, lexicographic by code point. -/
def nameLess : List Char → List Char → Bool
  | _, [] => false
  | [], _ :: _ => true
  | a :: as, b :: bs =>
    if a.toNat < b.toNat then true
    else if b.toNat < a.toNat then false
    else nameLess as bs

/-- Insertion into a listing sorted by file name. -/
def insertEntry (e : DirEntry) : List DirEntry → List DirEntry
  | [] => [e]
  | x :: xs =>
    if nameLess x.name.data e.name.data then x :: insertEntry e xs else e :: x :: xs

/-- Is the file usable for writing: not nil and not closed? -/
def World.isOpen (w : World) (f : File) : Bool :=
  match f with
  | .nil => false
  | _ => !w.closed.contains f

/-- Go `os.Stat(path)`, returning only the error. -/
def osStat (w : World) (path : String) : World × Option OsError :=
  ({ w with ops := w.ops ++ [.stat path] },
    if w.dirs.contains path || w.files.contains path then none else some .notExist)

/-- Go `os.IsExist(err)`: true only for an "already exists" error, which none
of the errors of `os.Stat` is. -/
def osIsExist (_err : OsError) : Bool := false

/-- Go `os.MkdirAll(path, perm)`: creates the directory and its missing
ancestors; fails when one of them exists as a regular file. -/
def osMkdirAll (w : World) (path : String) : World × Option OsError :=
  let w1 := { w with ops := w.ops ++ [.mkdirAll path] }
  let as := ancestors (path.length + 1) path
  if as.any (fun a => w.files.contains a) then (w1, some .notDir)
  else ({ w1 with dirs := w.dirs ++ (as.filter (fun a => !w.dirs.contains a)) }, none)

/-- Go `os.OpenFile(path, O_CREATE|O_APPEND|O_WRONLY, perm)`: fails with a nil
file when the path is a directory or its parent directory is missing (a path
without a slash lies in the working directory); otherwise the file is created
if absent and a fresh open file is returned. -/
def osOpenFile (w : World) (path : String) : World × File :=
  let w1 := { w with ops := w.ops ++ [.openFile path] }
  if w.dirs.contains path || !(parentOf path = "" || w.dirs.contains (parentOf path)) then
    (w1, .nil)
  else
    ({ w1 with files := if w.files.contains path then w.files else w.files ++ [path],
               nextFd := w.nextFd + 1 },
      .fd w.nextFd path)

/-- Go `(*os.File).Close`: an error on a nil or already closed file. -/
def osClose (w : World) (f : File) : World × Option OsError :=
  let w1 := { w with ops := w.ops ++ [.close f] }
  match f with
  | .nil => (w1, some .invalid)
  | _ => if w.closed.contains f then (w1, some .closed)
         else ({ w1 with closed := w.closed ++ [f] }, none)

/-- Go `os.ReadDir(path)`: the entries directly inside the directory, sorted
by name; `none` stands for a non-nil error.  The path is resolved as the system
does (an empty path is an error, `logs/` names `logs`); the working directory
and the root directory always exist. -/
def osReadDir (w : World) (path : String) : World × Option (List DirEntry) :=
  let w1 := { w with ops := w.ops ++ [.readDir path] }
  let dir := pathClean path
  if !(path = "") && (dir = "." || dir = "/" || w.dirs.contains dir) then
    (w1, some (((w.dirs.filterMap (childName dir)).map (fun n => DirEntry.mk n true)
        ++ (w.files.filterMap (childName dir)).map (fun n => DirEntry.mk n false)).foldr
          insertEntry []))
  else (w1, none)

/-- Go `os.RemoveAll(path)`: removes the path and everything below it. -/
def osRemoveAll (w : World) (path : String) : World :=
  { w with ops := w.ops ++ [.removeAll path],
           dirs := w.dirs.filter (fun p => !(p = path || isUnder path p)),
           files := w.files.filter (fun p => !(p = path || isUnder path p)) }

/-- A write of `line` to the file `f`. -/
def fileWrite (w : World) (f : File) (line : String) : World :=
  { w with output := w.output ++ [{ file := f, line := line, ok := w.isOpen f }] }

/-- A Go `*log.Logger` as built by `log.New(out, tag, flags)`: the output it
is bound to and its line tag. -/
structure GoLogger where
  out : File
  tag : String
  deriving DecidableEq

/-- Go `log.New(out, tag, log.Llongfile|log.LstdFlags)`. -/
def logNew (out : File) (tag : String) : GoLogger := { out := out, tag := tag }

/-- Go `(*log.Logger).Output(calldepth, msg)`: one write of the tagged line to
the logger's output (time stamp and caller location are left out of the text);
the error of a failed write is returned to a caller that drops it. -/
def GoLogger.Output (g : GoLogger) (w : World) (msg : String) : World :=
  fileWrite w g.out (g.tag ++ msg)

/-- Go `log.Println("folder ", name, " deleted!")` on the standard logger, which
writes to `os.Stderr`. -/
def logPrintlnDeleted (w : World) (name : String) : World :=
  fileWrite w .stderr ("folder  " ++ name ++ "  deleted!")

/-! ## The logger (`log.go`) -/

/-- The `Logger` struct.  `date` is the day of the year (Go `int32`),
`maxKeepDays` a Go `int`; the two mutexes carry no data. -/
structure Logger where
  out : File
  debugLogger : GoLogger
  infoLogger : GoLogger
  warningLogger : GoLogger
  errorLogger : GoLogger
  logToFile : Bool
  traceKey : String
  rootPath : String
  logFileName : String
  date : Int
  maxKeepDays : Int
  deriving DecidableEq

/-- Source `folderExists`. -/
def folderExists (w : World) (folderName : String) : World × Bool :=
  let (w1, err) := osStat w folderName
  match err with
  | some e => if osIsExist e then (w1, true) else (w1, false)
  | none => (w1, false)

/-- Source `createDateFolder`. -/
def createDateFolder (w : World) (rootPath date : String) : World × Option OsError :=
  let folderPath := pathJoin [rootPath, date]
  let (w1, found) := folderExists w folderPath
  if !found then osMkdirAll w1 folderPath else (w1, none)

/-- Source `createFileOfToday`: the dated folder is created first, whatever
`logToFile` is, and the error of that step is dropped. -/
def createFileOfToday (w : World) (now : Time) (rootPath filename : String)
    (logToFile : Bool) : World × File :=
  let td := formatDate now
  let (w1, _) := createDateFolder w rootPath td
  if !logToFile then (w1, File.stderr)
  else osOpenFile w1 (pathJoin [rootPath, td, filename])

/-- Source `NewLogger`. -/
def NewLogger (w : World) (now : Time) (logToFile : Bool)
    (rootPath logFileName traceKey : String) (maxKeepDays : Int) : World × Logger :=
  let (w1, out) := createFileOfToday w now rootPath logFileName logToFile
  (w1,
    { out := out
      debugLogger := logNew out "[Debug] "
      infoLogger := logNew out "[Info] "
      warningLogger := logNew out "[Warning] "
      errorLogger := logNew out "[Error] "
      logToFile := logToFile
      traceKey := traceKey
      rootPath := rootPath
      logFileName := logFileName
      date := now.YearDay
      maxKeepDays := maxKeepDays })

/-- Source `Default`. -/
def Default (w : World) (now : Time) : World × Logger :=
  NewLogger w now true "logs" "log" "traceKey" 7

/-- Source `updateLogger`: closes `l.out`, opens today's file into a local
variable and rebuilds the four writers on it; the field `out` is not
assigned. -/
def updateLogger (l : Logger) (w : World) (now : Time) : Logger × World :=
  let (w1, _) := osClose w l.out
  let (w2, out) := createFileOfToday w1 now l.rootPath l.logFileName l.logToFile
  ({ l with debugLogger := logNew out "[Debug] "
            infoLogger := logNew out "[Info] "
            warningLogger := logNew out "[Warning] "
            errorLogger := logNew out "[Error] " }, w2)

/-- Source `compareDateAndUpdate`, run by one caller at a time: the unlocked
and the locked comparison read the same `date`. -/
def compareDateAndUpdate (l : Logger) (now : Time) : Logger × Bool :=
  let nd := now.YearDay
  if l.date ≠ nd then
    if l.date ≠ nd then ({ l with date := nd }, true) else (l, false)
  else (l, false)

/-- Body of the loop of `deleteExpiredFiles` for one entry: the error of
`time.Parse` is dropped and the comparison is made on `int64`. -/
def sweepEntry (l : Logger) (nt : Int) (w : World) (e : DirEntry) : World :=
  if e.isDir then
    let date := (timeParseUnix e.name).1
    if wrap64 (nt - date)
        ≥ wrap64 (wrap64 (wrap64 (wrap64 (l.maxKeepDays - 1) * 24) * 60) * 60) then
      logPrintlnDeleted (osRemoveAll w (pathJoin [l.rootPath, e.name])) e.name
    else w
  else w

/-- Source `deleteExpiredFiles`. -/
def deleteExpiredFiles (l : Logger) (w : World) (now : Time) : World :=
  match osReadDir w l.rootPath with
  | (w1, none) => w1
  | (w1, some es) =>
    let nt := now.unix
    es.foldl (sweepEntry l nt) w1

/-- Source `getMsgWithTrace`.  `visit` gives the order in which this run of
the `range` statement visits the entries of the map. -/
def getMsgWithTrace (l : Logger) (ctx : Context)
    (visit : List (String × GoValue) → List (String × GoValue))
    (args : List GoValue) : String :=
  let msg := Sprint args
  let msg := stringsTrim msg "[]"
  match ctx.Value l.traceKey with
  | some (.mapping traceData) =>
    let traceDataStr := (visit traceData).foldl
      (fun acc kv => acc ++ " " ++ kv.1 ++ " " ++ fmtV kv.2) ""
    let traceDataStr := stringsTrim traceDataStr " "
    "\x7b" ++ traceDataStr ++ "\x7d " ++ msg
  | _ => msg

/-- Source `wrappedLog`, with one clock reading for the whole call. -/
def wrappedLog (l : Logger) (w : World) (now : Time) (logger : GoLogger)
    (msg : String) : Logger × World :=
  let (l1, changed) := compareDateAndUpdate l now
  let (l2, w2) :=
    if changed then
      let (l', w') := updateLogger l1 w now
      (l', deleteExpiredFiles l' w' now)
    else (l1, w)
  (l2, logger.Output w2 msg)

/-- Source `Debug`: the writer argument `l.debugLogger` is evaluated before
`wrappedLog` runs. -/
def Debug (l : Logger) (w : World) (now : Time) (ctx : Context)
    (visit : List (String × GoValue) → List (String × GoValue))
    (args : List GoValue) : Logger × World :=
  wrappedLog l w now l.debugLogger (getMsgWithTrace l ctx visit args)

/-- Source `Info`. -/
def Info (l : Logger) (w : World) (now : Time) (ctx : Context)
    (visit : List (String × GoValue) → List (String × GoValue))
    (args : List GoValue) : Logger × World :=
  wrappedLog l w now l.infoLogger (getMsgWithTrace l ctx visit args)

/-- Source `Warning`. -/
def Warning (l : Logger) (w : World) (now : Time) (ctx : Context)
    (visit : List (String × GoValue) → List (String × GoValue))
    (args : List GoValue) : Logger × World :=
  wrappedLog l w now l.warningLogger (getMsgWithTrace l ctx visit args)

/-- Source `Error`. -/
def Error (l : Logger) (w : World) (now : Time) (ctx : Context)
    (visit : List (String × GoValue) → List (String × GoValue))
    (args : List GoValue) : Logger × World :=
  wrappedLog l w now l.errorLogger (getMsgWithTrace l ctx visit args)

/-! ## Sequences of calls -/

/-- The four leveled entry points. -/
inductive Level where
  | debug
  | info
  | warning
  | error
  deriving DecidableEq

/-- One leveled call: the entry point, its arguments, the clock reading and
the map visiting order of that call. -/
structure Call where
  level : Level
  ctx : Context
  visit : List (String × GoValue) → List (String × GoValue)
  args : List GoValue
  now : Time

/-- Execution of one leveled call. -/
def runCall (l : Logger) (w : World) (c : Call) : Logger × World :=
  match c.level with
  | .debug => Debug l w c.now c.ctx c.visit c.args
  | .info => Info l w c.now c.ctx c.visit c.args
  | .warning => Warning l w c.now c.ctx c.visit c.args
  | .error => Error l w c.now c.ctx c.visit c.args

/-- Sequential execution of a list of leveled calls. -/
def runCalls (l : Logger) (w : World) : List Call → Logger × World
  | [] => (l, w)
  | c :: cs => runCalls (runCall l w c).1 (runCall l w c).2 cs

/-- What `compareDateAndUpdate` returns inside each call of a sequential run,
in order. -/
def rotationFlags (l : Logger) (w : World) : List Call → List Bool
  | [] => []
  | c :: cs =>
    (compareDateAndUpdate l c.now).2 :: rotationFlags (runCall l w c).1 (runCall l w c).2 cs

/-- A world with the given directories and files and nothing opened, closed or
written yet. -/
def World.initial (dirs files : List String) : World :=
  { dirs := dirs, files := files, nextFd := 0, closed := [], output := [], ops := [] }

/-! ## Reference renderings and sample inputs -/

/-- The trace text in the words of the specification: every pair rendered as
`key value`, the pairs joined by single spaces in the given order, surrounding
spaces trimmed. -/
def specTraceText (order : List (String × GoValue)) : String :=
  stringsTrim (" ".intercalate (order.map (fun kv => kv.1 ++ " " ++ fmtV kv.2))) " "

/-- 2024-05-12 10:00:00 UTC, read on a machine whose local zone is UTC. -/
def may12 : Time := { unix := 1715508000, offset := 0 }

/-- 2024-05-13 10:00:00 UTC, local zone UTC. -/
def may13 : Time := { unix := 1715594400, offset := 0 }

/-- 2024-05-14 10:00:00 UTC, local zone UTC. -/
def may14 : Time := { unix := 1715680800, offset := 0 }

/-- The logger `NewLogger(true, "logs", "log", "traceKey", maxKeepDays)` builds
on 2024-05-12 in an empty working directory. -/
def keepLogger (maxKeepDays : Int) : Logger :=
  (NewLogger (World.initial [] []) may12 true "logs" "log" "traceKey" maxKeepDays).2

/-- The world after `Default()` ran on 2024-05-12 in an empty working
directory. -/
def fileWorld : World := (Default (World.initial [] []) may12).1

/-- The logger `Default()` returns on 2024-05-12. -/
def fileLogger : Logger := (Default (World.initial [] []) may12).2

/-- The world after `NewLogger(false, "logs", "log", "traceKey", 7)` ran on
2024-05-12 in an empty working directory. -/
def consoleWorld : World :=
  (NewLogger (World.initial [] []) may12 false "logs" "log" "traceKey" 7).1

/-- The logger `NewLogger(false, "logs", "log", "traceKey", 7)` returns on
2024-05-12. -/
def consoleLogger : Logger :=
  (NewLogger (World.initial [] []) may12 false "logs" "log" "traceKey" 7).2

/-- A `Debug` call with a background context and one string argument. -/
def debugCall (now : Time) (text : String) : Call :=
  { level := .debug, ctx := [], visit := id, args := [.str text], now := now }

/-- The context of `TestLogTrack`: request id 123 and user id "456" under the
key "traceKey". -/
def trackCtx : Context :=
  [("traceKey", .mapping [("request_id", .int 123), ("user_id", .str "456")])]

/-! ## Lemmas on trimming and joining -/

theorem trim_cons_of_mem (p : Char → Bool) (a : Char) (ha : p a = true) (X : List Char) :
    List.dropWhile p (List.rdropWhile p (a :: X)) = List.dropWhile p (List.rdropWhile p X) := by
  induction X using List.reverseRecOn with
  | nil => simp [List.rdropWhile, ha]
  | append_singleton Y x ih =>
    by_cases hx : p x = true
    · rw [← List.cons_append, List.rdropWhile_concat_pos _ _ _ hx,
        List.rdropWhile_concat_pos _ _ _ hx]
      exact ih
    · rw [← List.cons_append, List.rdropWhile_concat_neg _ _ _ hx,
        List.rdropWhile_concat_neg _ _ _ hx, List.cons_append]
      simp [ha]

theorem intercalate_go_data (s : String) (as : List String) (acc : String) :
    (String.intercalate.go acc s as).data
      = acc.data ++ (as.map (fun a => s.data ++ a.data)).flatten := by
  induction as generalizing acc with
  | nil => simp [String.intercalate.go]
  | cons a as ih => simp [String.intercalate.go, ih]

theorem foldl_trace_data (order : List (String × GoValue)) (acc : String) :
    (order.foldl (fun acc kv => acc ++ " " ++ kv.1 ++ " " ++ fmtV kv.2) acc).data
      = acc.data
        ++ (order.map (fun kv => " ".data ++ (kv.1 ++ " " ++ fmtV kv.2).data)).flatten := by
  induction order generalizing acc with
  | nil => simp
  | cons kv rest ih => simp [ih]

theorem getMsgWithTrace_of_mapping (l : Logger) (ctx : Context)
    (visit : List (String × GoValue) → List (String × GoValue)) (args : List GoValue)
    (m : List (String × GoValue)) (hctx : ctx.Value l.traceKey = some (.mapping m)) :
    getMsgWithTrace l ctx visit args
      = "\x7b" ++ stringsTrim ((visit m).foldl
          (fun acc kv => acc ++ " " ++ kv.1 ++ " " ++ fmtV kv.2) "") " "
        ++ "\x7d " ++ stringsTrim (Sprint args) "[]" := by
  simp only [getMsgWithTrace, hctx]

theorem trim_foldl_eq_specTraceText (order : List (String × GoValue)) :
    stringsTrim (order.foldl (fun acc kv => acc ++ " " ++ kv.1 ++ " " ++ fmtV kv.2) "") " "
      = specTraceText order := by
  cases order with
  | nil => rfl
  | cons kv rest =>
    apply String.ext
    simp only [specTraceText, stringsTrim, foldl_trace_data, List.map_cons, String.intercalate,
      intercalate_go_data]
    have hsp : (" " : String).data = [' '] := rfl
    simp only [hsp, List.flatten_cons, List.singleton_append, String.data_append,
      List.nil_append, List.map_map, List.cons_append]
    have h := trim_cons_of_mem (fun c => decide (c ∈ [' '])) ' ' (by decide)
    rw [h]
    rfl

theorem perm_pair_cases {α : Type} (x y : α) (o : List α) (h : o.Perm [x, y]) :
    o = [x, y] ∨ o = [y, x] := by
  have hlen := h.length_eq
  match o, hlen with
  | [a, b], _ =>
    have ha : a ∈ [x, y] := h.subset (by simp)
    have hb : b ∈ [x, y] := h.subset (by simp)
    have hx : x ∈ [a, b] := h.symm.subset (by simp)
    have hy : y ∈ [a, b] := h.symm.subset (by simp)
    simp only [List.mem_cons, List.mem_singleton, List.not_mem_nil, or_false] at ha hb hx hy
    rcases ha with rfl | rfl <;> rcases hb with rfl | rfl <;> simp_all

/-! ## Trace annotation (`getMsgWithTrace`) -/

/-- Claim C6.  When the context holds a `map[string]any` `m` under the trace
key, `getMsgWithTrace` returns an opening brace, the trace text, a closing brace,
a space and the base message, where the trace text renders the pairs of `m` as
`key value`, joined by single spaces in the order the map was visited (some
permutation of the entries) and trimmed of surrounding spaces; for the empty map
that is a pair of braces, a space and the base message; and for request id 123,
user id "456" and the message `hello` it is one of the two orderings. -/
theorem getMsgWithTrace_with_mapping (l : Logger) (ctx : Context)
    (visit : List (String × GoValue) → List (String × GoValue)) (args : List GoValue)
    (m : List (String × GoValue)) (hctx : ctx.Value l.traceKey = some (.mapping m))
    (hvisit : (visit m).Perm m) :
    (∃ order, order.Perm m ∧ getMsgWithTrace l ctx visit args
        = "\x7b" ++ specTraceText order ++ "\x7d " ++ stringsTrim (Sprint args) "[]")
    ∧ (m = [] → getMsgWithTrace l ctx visit args
        = "\x7b\x7d " ++ stringsTrim (Sprint args) "[]")
    ∧ (m = [("request_id", .int 123), ("user_id", .str "456")] → args = [.str "hello"] →
        getMsgWithTrace l ctx visit args = "\x7brequest_id 123 user_id 456\x7d hello"
        ∨ getMsgWithTrace l ctx visit args = "\x7buser_id 456 request_id 123\x7d hello") := by
  have hmain := getMsgWithTrace_of_mapping l ctx visit args m hctx
  rw [trim_foldl_eq_specTraceText] at hmain
  refine ⟨⟨visit m, hvisit, hmain⟩, ?_, ?_⟩
  · intro hm
    subst hm
    have hnil : visit [] = [] := List.Perm.eq_nil hvisit
    rw [hmain, hnil]
    rfl
  · intro hm hargs
    subst hm hargs
    rcases perm_pair_cases _ _ _ hvisit with h | h
    · left
      rw [hmain, h]
      decide
    · right
      rw [hmain, h]
      decide

/-- Claim C6 at the context of `TestLogTrack` and the message `hello`. -/
theorem getMsgWithTrace_with_mapping_witness :
    getMsgWithTrace fileLogger trackCtx id [.str "hello"]
        = "\x7brequest_id 123 user_id 456\x7d hello"
    ∨ getMsgWithTrace fileLogger trackCtx id [.str "hello"]
        = "\x7buser_id 456 request_id 123\x7d hello" :=
  (getMsgWithTrace_with_mapping fileLogger trackCtx id [.str "hello"]
    [("request_id", .int 123), ("user_id", .str "456")] (by decide) (List.Perm.refl _)).2.2
    rfl rfl

theorem trim_decomposition (p : Char → Bool) (s : List Char) :
    ∃ pre post : List Char,
      s = pre ++ List.dropWhile p (List.rdropWhile p s) ++ post
      ∧ (∀ c ∈ pre, p c = true) ∧ (∀ c ∈ post, p c = true) := by
  refine ⟨List.takeWhile p (List.rdropWhile p s), List.rtakeWhile p s, ?_, ?_, ?_⟩
  · rw [List.takeWhile_append_dropWhile]
    simp only [List.rdropWhile, List.rtakeWhile, ← List.reverse_append,
      List.takeWhile_append_dropWhile, List.reverse_reverse]
  · intro c hc
    exact List.mem_takeWhile_imp hc
  · intro c hc
    exact List.mem_rtakeWhile_imp hc

theorem trim_head_not (p : Char → Bool) (s : List Char) (c : Char)
    (h : (List.dropWhile p (List.rdropWhile p s)).head? = some c) : p c = false := by
  have := List.head?_dropWhile_not p (List.rdropWhile p s)
  rw [h] at this
  exact this

theorem trim_getLast_not (p : Char → Bool) (s : List Char) (c : Char)
    (h : (List.dropWhile p (List.rdropWhile p s)).getLast? = some c) : p c = false := by
  have hne : List.dropWhile p (List.rdropWhile p s) ≠ [] := by
    intro h0
    rw [h0] at h
    simp at h
  have hsuf : List.dropWhile p (List.rdropWhile p s) <:+ List.rdropWhile p s :=
    List.dropWhile_suffix p
  have hne2 : List.rdropWhile p s ≠ [] := by
    intro h0
    rw [h0] at hne
    simp at hne
  have hlast := hsuf.getLast hne
  rw [List.getLast?_eq_getLast _ hne] at h
  have hc : (List.rdropWhile p s).getLast hne2 = c := by
    rw [← hlast]
    exact Option.some.inj h
  have := List.rdropWhile_last_not p s hne2
  rw [hc] at this
  simpa using this

/-- Claim C7.  When the context has no value under the trace key, or one that is
not a `map[string]any`, `getMsgWithTrace` returns the base message alone: the
`Sprint` text of the arguments with a run of square brackets removed at each
end and nothing else changed (the result neither starts nor ends with a square
bracket); `hello` stays `hello` and `[abc]` becomes `abc`. -/
theorem getMsgWithTrace_without_mapping (l : Logger) (ctx : Context)
    (visit : List (String × GoValue) → List (String × GoValue)) (args : List GoValue)
    (hctx : ctx.Value l.traceKey = none ∨ ∃ v, ctx.Value l.traceKey = some (.notMapping v)) :
    getMsgWithTrace l ctx visit args = stringsTrim (Sprint args) "[]"
    ∧ (∃ pre post : List Char,
        (Sprint args).data = pre ++ (getMsgWithTrace l ctx visit args).data ++ post
        ∧ (∀ c ∈ pre, c = '[' ∨ c = ']') ∧ (∀ c ∈ post, c = '[' ∨ c = ']'))
    ∧ (∀ c, (getMsgWithTrace l ctx visit args).data.head? = some c → c ≠ '[' ∧ c ≠ ']')
    ∧ (∀ c, (getMsgWithTrace l ctx visit args).data.getLast? = some c → c ≠ '[' ∧ c ≠ ']')
    ∧ (args = [.str "hello"] → getMsgWithTrace l ctx visit args = "hello")
    ∧ (args = [.str "[abc]"] → getMsgWithTrace l ctx visit args = "abc") := by
  have hmsg : getMsgWithTrace l ctx visit args = stringsTrim (Sprint args) "[]" := by
    rcases hctx with h | ⟨v, h⟩ <;> simp only [getMsgWithTrace, h]
  have hcut : ∀ c : Char, decide (c ∈ ("[]" : String).data) = true ↔ (c = '[' ∨ c = ']') := by
    intro c
    have : ("[]" : String).data = ['[', ']'] := rfl
    simp [this]
  have hcutn : ∀ c : Char, decide (c ∈ ("[]" : String).data) = false → (c ≠ '[' ∧ c ≠ ']') := by
    intro c hc
    have : ("[]" : String).data = ['[', ']'] := rfl
    simpa [this] using hc
  refine ⟨hmsg, ?_, ?_, ?_, ?_, ?_⟩
  · obtain ⟨pre, post, hs, hpre, hpost⟩ :=
      trim_decomposition (fun c => decide (c ∈ ("[]" : String).data)) (Sprint args).data
    refine ⟨pre, post, ?_, fun c hc => (hcut c).1 (hpre c hc), fun c hc => (hcut c).1 (hpost c hc)⟩
    rw [hmsg]
    exact hs
  · intro c hc
    rw [hmsg] at hc
    exact hcutn c (trim_head_not _ _ c hc)
  · intro c hc
    rw [hmsg] at hc
    exact hcutn c (trim_getLast_not _ _ c hc)
  · intro ha
    rw [hmsg, ha]
    decide
  · intro ha
    rw [hmsg, ha]
    decide

/-- Claim C7 at a background context and the argument list `["[abc]"]`. -/
theorem getMsgWithTrace_without_mapping_witness :
    getMsgWithTrace fileLogger [] id [.str "[abc]"] = "abc" :=
  (getMsgWithTrace_without_mapping fileLogger [] id [.str "[abc]"]
    (Or.inl (by decide))).2.2.2.2.2 rfl

/-! ## Day tracking in a sequential run -/

theorem wrappedLog_date (l : Logger) (w : World) (now : Time) (g : GoLogger) (msg : String) :
    (wrappedLog l w now g msg).1.date = now.YearDay := by
  unfold wrappedLog compareDateAndUpdate
  by_cases h : l.date = now.YearDay
  · simp [h]
  · simp [h, updateLogger]

theorem wrappedLog_same_day (l : Logger) (w : World) (now : Time) (g : GoLogger) (msg : String)
    (h : l.date = now.YearDay) :
    wrappedLog l w now g msg = (l, g.Output w msg) := by
  unfold wrappedLog compareDateAndUpdate
  simp [h]

theorem runCall_date (l : Logger) (w : World) (c : Call) :
    (runCall l w c).1.date = c.now.YearDay := by
  unfold runCall
  cases c.level <;> simp only [Debug, Info, Warning, Error, wrappedLog_date]

theorem runCall_same_day (l : Logger) (w : World) (c : Call) (h : l.date = c.now.YearDay) :
    (runCall l w c).1 = l
    ∧ (runCall l w c).2.ops = w.ops ∧ (runCall l w c).2.dirs = w.dirs
    ∧ (runCall l w c).2.files = w.files ∧ (runCall l w c).2.closed = w.closed
    ∧ (runCall l w c).2.nextFd = w.nextFd := by
  unfold runCall
  cases c.level <;>
    simp [Debug, Info, Warning, Error, wrappedLog_same_day _ _ _ _ _ h, GoLogger.Output, fileWrite]

theorem runCalls_same_day (nd : Int) (calls : List Call) :
    ∀ (l : Logger) (w : World), l.date = nd → (∀ c ∈ calls, c.now.YearDay = nd) →
      (runCalls l w calls).1 = l
      ∧ (runCalls l w calls).2.ops = w.ops ∧ (runCalls l w calls).2.dirs = w.dirs
      ∧ (runCalls l w calls).2.files = w.files ∧ (runCalls l w calls).2.closed = w.closed
      ∧ (runCalls l w calls).2.nextFd = w.nextFd
      ∧ rotationFlags l w calls = List.replicate calls.length false := by
  induction calls with
  | nil => intro l w _ _; simp [runCalls, rotationFlags]
  | cons c cs ih =>
    intro l w hl hday
    have hc : l.date = c.now.YearDay := by rw [hl, hday c (List.mem_cons_self _ _)]
    obtain ⟨h1, h2, h3, h4, h5, h6⟩ := runCall_same_day l w c hc
    have hrest := ih (runCall l w c).1 (runCall l w c).2 (by rw [h1]; exact hl)
      (fun c' hc' => hday c' (List.mem_cons_of_mem _ hc'))
    obtain ⟨r1, r2, r3, r4, r5, r6, r7⟩ := hrest
    simp only [runCalls, rotationFlags, List.length_cons, List.replicate_succ]
    refine ⟨by rw [r1, h1], by rw [r2, h2], by rw [r3, h3], by rw [r4, h4], by rw [r5, h5],
      by rw [r6, h6], ?_⟩
    rw [r7]
    simp [compareDateAndUpdate, hc]

/-- Claim C8.  In a sequential run of leveled calls that all read the same day
of the year `nd`, `compareDateAndUpdate` returns true in the first call exactly
when the stored `date` differs from `nd` and false in every later call; after
any non-empty part of the run `date` is `nd`; after the first call neither the
logger nor the trace of system calls changes again; and when `date` is `nd`
from the start the logger, the trace of system calls, the directories, the
files and the closed descriptors all stay as they were. -/
theorem same_day_calls_rotate_at_most_once (l : Logger) (w : World) (nd : Int) (calls : List Call)
    (hday : ∀ c ∈ calls, c.now.YearDay = nd) :
    rotationFlags l w calls
        = (match calls with
           | [] => []
           | _ :: cs => decide (l.date ≠ nd) :: List.replicate cs.length false)
    ∧ (∀ k, 0 < k → k ≤ calls.length → (runCalls l w (calls.take k)).1.date = nd)
    ∧ (∀ c cs, calls = c :: cs →
        (runCalls l w calls).1 = (runCall l w c).1
        ∧ (runCalls l w calls).2.ops = (runCall l w c).2.ops)
    ∧ (l.date = nd →
        (runCalls l w calls).1 = l
        ∧ (runCalls l w calls).2.ops = w.ops ∧ (runCalls l w calls).2.dirs = w.dirs
        ∧ (runCalls l w calls).2.files = w.files ∧ (runCalls l w calls).2.closed = w.closed
        ∧ rotationFlags l w calls = List.replicate calls.length false) := by
  refine ⟨?_, ?_, ?_, ?_⟩
  · cases calls with
    | nil => rfl
    | cons c cs =>
      have hc : c.now.YearDay = nd := hday c (List.mem_cons_self _ _)
      have h1 : (runCall l w c).1.date = nd := by rw [runCall_date, hc]
      have hrest := runCalls_same_day nd cs (runCall l w c).1 (runCall l w c).2 h1
        (fun c' hc' => hday c' (List.mem_cons_of_mem _ hc'))
      simp only [rotationFlags, hrest.2.2.2.2.2.2]
      congr 1
      unfold compareDateAndUpdate
      by_cases h : l.date = nd
      · simp [h, hc]
      · simp [h, hc]
  · intro k hk hkl
    cases calls with
    | nil => simp at hkl; omega
    | cons c cs =>
      obtain ⟨j, rfl⟩ : ∃ j, k = j + 1 := ⟨k - 1, by omega⟩
      have hc : c.now.YearDay = nd := hday c (List.mem_cons_self _ _)
      have h1 : (runCall l w c).1.date = nd := by rw [runCall_date, hc]
      have hrest := runCalls_same_day nd (cs.take j) (runCall l w c).1 (runCall l w c).2 h1
        (fun c' hc' => hday c' (List.mem_cons_of_mem _ (List.mem_of_mem_take hc')))
      simp only [List.take_succ_cons, runCalls]
      rw [hrest.1]
      exact h1
  · intro c cs hcalls
    subst hcalls
    have hc : c.now.YearDay = nd := hday c (List.mem_cons_self _ _)
    have h1 : (runCall l w c).1.date = nd := by rw [runCall_date, hc]
    have hrest := runCalls_same_day nd cs (runCall l w c).1 (runCall l w c).2 h1
      (fun c' hc' => hday c' (List.mem_cons_of_mem _ hc'))
    simp only [runCalls]
    exact ⟨hrest.1, hrest.2.1⟩
  · intro hl
    obtain ⟨r1, r2, r3, r4, r5, _, r7⟩ := runCalls_same_day nd calls l w hl hday
    exact ⟨r1, r2, r3, r4, r5, r7⟩

/-- Claim C8 at a logger built on 2024-05-12 that serves three `Debug` calls on
2024-05-13 (day 134 of the year): only the first call rotates. -/
theorem same_day_calls_rotate_at_most_once_witness :
    rotationFlags fileLogger fileWorld
      [debugCall may13 "a", debugCall may13 "b", debugCall may13 "c"]
      = [true, false, false] :=
  (same_day_calls_rotate_at_most_once fileLogger fileWorld 134
    [debugCall may13 "a", debugCall may13 "b", debugCall may13 "c"]
    (by
      intro c hc
      simp only [List.mem_cons, List.mem_singleton, List.not_mem_nil, or_false] at hc
      rcases hc with rfl | rfl | rfl <;> decide)).1.trans (by decide)

/-! ## Retention sweep (`deleteExpiredFiles`) at concrete inputs -/

/-- Claim C1, evaluated.  With `maxKeepDays = -1` the threshold of the sweep is
`-172800` seconds, so on 2024-05-12 10:00 UTC the sweep removes the dated
directory of three days ago and the directory of today as well: only the root
remains. -/
theorem deleteExpiredFiles_minus_one_deletes :
    (keepLogger (-1)).maxKeepDays = -1
    ∧ (deleteExpiredFiles (keepLogger (-1))
        (World.initial ["logs", "logs/2024-05-09", "logs/2024-05-12"] []) may12).dirs
      = ["logs"]
    ∧ (deleteExpiredFiles (keepLogger (-1))
        (World.initial ["logs", "logs/2024-05-09", "logs/2024-05-12"] []) may12).ops
      = [.readDir "logs", .removeAll "logs/2024-05-09", .removeAll "logs/2024-05-12"] := by
  decide

/-- Claim C2, evaluated.  The name `tmp` does not parse as a date; the sweep
drops the parse error, takes the zero time as the date of the directory and
removes `logs/tmp` with everything below it, under the default retention of
seven days. -/
theorem deleteExpiredFiles_deletes_unparsed_dir :
    parseDate "tmp" = none
    ∧ (deleteExpiredFiles (keepLogger 7)
        (World.initial ["logs", "logs/tmp", "logs/tmp/data", "logs/2024-05-12"]
          ["logs/tmp/data/notes.txt"]) may12).dirs
      = ["logs", "logs/2024-05-12"]
    ∧ (deleteExpiredFiles (keepLogger 7)
        (World.initial ["logs", "logs/tmp", "logs/tmp/data", "logs/2024-05-12"]
          ["logs/tmp/data/notes.txt"]) may12).files = []
    ∧ (deleteExpiredFiles (keepLogger 7)
        (World.initial ["logs", "logs/tmp", "logs/tmp/data", "logs/2024-05-12"]
          ["logs/tmp/data/notes.txt"]) may12).ops
      = [.readDir "logs", .removeAll "logs/tmp"] := by
  decide

/-- Claim C3, evaluated.  With `maxKeepDays = 3` and the dated directories of
today (2024-05-12) and of the four days before, the sweep at 10:00 UTC keeps
only today and yesterday: the directory of two days ago, 2024-05-10, is removed
together with the two older ones.  With `maxKeepDays = 1` the directory of
today is removed. -/
theorem deleteExpiredFiles_keep_three_keeps_two :
    formatDate may12 = "2024-05-12"
    ∧ (deleteExpiredFiles (keepLogger 3)
        (World.initial ["logs", "logs/2024-05-08", "logs/2024-05-09", "logs/2024-05-10",
          "logs/2024-05-11", "logs/2024-05-12"] []) may12).dirs
      = ["logs", "logs/2024-05-11", "logs/2024-05-12"]
    ∧ (deleteExpiredFiles (keepLogger 1)
        (World.initial ["logs", "logs/2024-05-12"] []) may12).dirs = ["logs"] := by
  decide

/-! ## Rotation (`updateLogger`, `wrappedLog`) at concrete inputs -/

/-- Claim C4, evaluated.  A logger built on 2024-05-12 serves `Debug` on
2024-05-13: the rotation closes descriptor 0 and binds the new writers to
descriptor 1, and the message of that call is written through the writer read
before the rotation, to the closed descriptor 0, where the write fails.  The
`Debug` call of 2024-05-14 rotates again and its message goes to descriptor 1,
the file of 2024-05-13, while the new writers are bound to descriptor 2. -/
theorem rotating_call_writes_stale_writer :
    (Debug fileLogger fileWorld may13 [] id [.str "hello"]).2.output
      = [{ file := .fd 0 "logs/2024-05-12/log", line := "[Debug] hello", ok := false }]
    ∧ (Debug fileLogger fileWorld may13 [] id [.str "hello"]).1.debugLogger.out
      = .fd 1 "logs/2024-05-13/log"
    ∧ (Debug fileLogger fileWorld may13 [] id [.str "hello"]).2.closed
      = [.fd 0 "logs/2024-05-12/log"]
    ∧ (runCalls fileLogger fileWorld
        [debugCall may13 "hello", debugCall may14 "second"]).2.output.getLast?
      = some { file := .fd 1 "logs/2024-05-13/log", line := "[Debug] second", ok := true }
    ∧ (runCalls fileLogger fileWorld
        [debugCall may13 "hello", debugCall may14 "second"]).1.debugLogger.out
      = .fd 2 "logs/2024-05-14/log" := by
  decide

/-- Claim C5, evaluated.  With `logToFile = false`, `NewLogger` on 2024-05-12
creates the directory `logs/2024-05-12`; the `Debug` call of 2024-05-13 closes
`os.Stderr`, creates `logs/2024-05-13`, lists `logs` for the sweep, and its
message is written to the closed `os.Stderr`, where the write fails. -/
theorem console_logger_touches_file_system :
    consoleLogger.logToFile = false
    ∧ consoleWorld.dirs = ["logs", "logs/2024-05-12"]
    ∧ consoleWorld.ops = [.stat "logs/2024-05-12", .mkdirAll "logs/2024-05-12"]
    ∧ (Debug consoleLogger consoleWorld may13 [] id [.str "hello"]).2.ops
      = [.stat "logs/2024-05-12", .mkdirAll "logs/2024-05-12", .close .stderr,
         .stat "logs/2024-05-13", .mkdirAll "logs/2024-05-13", .readDir "logs"]
    ∧ (Debug consoleLogger consoleWorld may13 [] id [.str "hello"]).2.closed = [.stderr]
    ∧ (Debug consoleLogger consoleWorld may13 [] id [.str "hello"]).2.dirs
      = ["logs", "logs/2024-05-12", "logs/2024-05-13"]
    ∧ (Debug consoleLogger consoleWorld may13 [] id [.str "hello"]).2.output
      = [{ file := .stderr, line := "[Debug] hello", ok := false }] := by
  decide

/-- Claim C10, evaluated.  After the rotation of 2024-05-13 the field `out` is
still descriptor 0, opened by `NewLogger`, while the rebuilt writers are bound
to descriptor 1; the rotation of 2024-05-14 closes descriptor 0 a second time
and descriptor 1 is never closed. -/
theorem updateLogger_leaves_out_stale :
    (updateLogger fileLogger fileWorld may13).1.out = .fd 0 "logs/2024-05-12/log"
    ∧ (updateLogger fileLogger fileWorld may13).1.debugLogger.out
      = .fd 1 "logs/2024-05-13/log"
    ∧ (runCalls fileLogger fileWorld
        [debugCall may13 "hello", debugCall may14 "second"]).1.out
      = .fd 0 "logs/2024-05-12/log"
    ∧ (runCalls fileLogger fileWorld
        [debugCall may13 "hello", debugCall may14 "second"]).2.ops.filter
          (fun o => decide (o = .close (.fd 0 "logs/2024-05-12/log")))
      = [.close (.fd 0 "logs/2024-05-12/log"), .close (.fd 0 "logs/2024-05-12/log")]
    ∧ (runCalls fileLogger fileWorld
        [debugCall may13 "hello", debugCall may14 "second"]).2.closed
      = [.fd 0 "logs/2024-05-12/log"] := by
  decide

/-- Claim C9, evaluated on two schedules of callers that meet the day change of
2024-05-13.  When three `Debug` calls run one after the other, only the first
gets true from `compareDateAndUpdate`, and its message is written to
descriptor 0, which its own rotation closed: the write fails and the message is
lost.  When the second caller has read its writer argument before the first
caller rotated, its message goes to the closed descriptor 0 as well. -/
theorem day_change_callers_write_closed_handle :
    rotationFlags fileLogger fileWorld
        [debugCall may13 "a", debugCall may13 "b", debugCall may13 "c"]
      = [true, false, false]
    ∧ (runCalls fileLogger fileWorld
        [debugCall may13 "a", debugCall may13 "b", debugCall may13 "c"]).2.output
      = [{ file := .fd 0 "logs/2024-05-12/log", line := "[Debug] a", ok := false },
         { file := .fd 1 "logs/2024-05-13/log", line := "[Debug] b", ok := true },
         { file := .fd 1 "logs/2024-05-13/log", line := "[Debug] c", ok := true }]
    ∧ (runCalls fileLogger fileWorld
        [debugCall may13 "a", debugCall may13 "b", debugCall may13 "c"]).2.closed
      = [.fd 0 "logs/2024-05-12/log"]
    ∧ (wrappedLog (runCall fileLogger fileWorld (debugCall may13 "a")).1
        (runCall fileLogger fileWorld (debugCall may13 "a")).2 may13
        fileLogger.debugLogger (getMsgWithTrace fileLogger [] id [.str "b"])).2.output
      = [{ file := .fd 0 "logs/2024-05-12/log", line := "[Debug] a", ok := false },
         { file := .fd 0 "logs/2024-05-12/log", line := "[Debug] b", ok := false }] := by
  decide

end Golog
